import Mathlib

/-!
Shallow embedding of `stl_metadata.py`: a parser for text STL meshes that
derives per-facet areas (Heron's formula), a running area total, running
bounding extents (updated from each facet's first vertex only) and a
vertex-to-facet index.

Modelling conventions:
* Python `float` values are modelled as exact rationals `ℚ` (decimal
  literals parse exactly; IEEE rounding is outside the model), and the
  real-valued computations (`** .5`) as real-number `rpow`.
* The mutable `Surface` object is modelled by explicit state passing:
  every mutating method becomes a function `Surface → ... → Surface`.
* Fallible code (Python exceptions: `IndexError` on an empty line,
  `ValueError` from `float`, `IndexError`/`TypeError` in `Facet.__init__`)
  is modelled with `Option`: `none` means the Python code raises.
-/

namespace StlMetadata

/-- Models `Point = namedtuple('Point', 'x y z')`: an immutable coordinate triple.
Coordinates are exact rationals (see module conventions). -/
structure Point where
  x : ℚ
  y : ℚ
  z : ℚ
deriving DecidableEq

/-- Models `Facet.find_area`'s inner `_distance`: Euclidean distance between two
points, `((p2.x-p1.x)**2 + (p2.y-p1.y)**2 + (p2.z-p1.z)**2)**.5`, with the
Python `** .5` modelled as real `rpow` by `0.5`. -/
noncomputable def _distance (p1 p2 : Point) : ℝ :=
  (((p2.x : ℝ) - (p1.x : ℝ)) ^ 2 + ((p2.y : ℝ) - (p1.y : ℝ)) ^ 2 +
      ((p2.z : ℝ) - (p1.z : ℝ)) ^ 2) ^ (0.5 : ℝ)

/-- Models `Facet.find_area`: Heron's formula exactly as in the source,
`s = 0.5 * (ab + bc + ca)` and `(s*(s-ab)*(s-bc)*(s-ca))**.5`. -/
noncomputable def find_area (A B C : Point) : ℝ :=
  let ab := _distance A B
  let bc := _distance B C
  let ca := _distance C A
  let s := 0.5 * (ab + bc + ca)
  (s * (s - ab) * (s - bc) * (s - ca)) ^ (0.5 : ℝ)

/-- Models `Facet`: a normal (`None` or the parsed tuple), the three vertices
`A`, `B`, `C`, and the derived `area` stored at construction. -/
structure Facet where
  N : Option (List ℚ)
  A : Point
  B : Point
  C : Point
  area : ℝ

/-- Models `Point(*v)` inside `Facet.__init__`: succeeds only on a coordinate list
of length exactly 3 (otherwise Python raises `TypeError`). -/
def mkPoint : List ℚ → Option Point
  | [x, y, z] => some { x := x, y := y, z := z }
  | _ => none

/-- Models `Facet.__init__(n, v)`: reads `v[0]`, `v[1]`, `v[2]` (IndexError when
there are fewer than three entries, extra entries ignored), builds the
three `Point`s and stores `self.area = self.find_area()`. -/
noncomputable def mkFacet (n : Option (List ℚ)) (v : List (List ℚ)) :
    Option Facet :=
  match v with
  | a :: b :: c :: _ =>
    (mkPoint a).bind fun A =>
      (mkPoint b).bind fun B =>
        (mkPoint c).bind fun C =>
          some { N := n, A := A, B := B, C := C, area := find_area A B C }
  | _ => none

/-- The facet value built by `mkFacet` from three already-converted points. -/
noncomputable def facetOf (n : Option (List ℚ)) (A B C : Point) : Facet :=
  { N := n, A := A, B := B, C := C, area := find_area A B C }

/-- Models `Surface.__init__`: name `None`, running area `0`, empty facet list,
empty vertex index (`defaultdict(list)` modelled as an association list in
key-insertion order), and the six extents seeded at `0`. -/
structure Surface where
  name : Option (List String)
  area : ℝ
  facets : List Facet
  vertices : List (List ℚ × List Facet)
  min_x : ℚ
  max_x : ℚ
  min_y : ℚ
  max_y : ℚ
  min_z : ℚ
  max_z : ℚ

/-- The freshly constructed `Surface()`. -/
noncomputable def Surface.init : Surface :=
  { name := none, area := 0, facets := [], vertices := [],
    min_x := 0, max_x := 0, min_y := 0, max_y := 0, min_z := 0, max_z := 0 }

/-- Models `Surface.set_name`: unconditional assignment `self.name = name`. -/
noncomputable def Surface.set_name (s : Surface) (n : List String) : Surface :=
  { s with name := some n }

/-- Models `self.vertices[v].append(f)` on the `defaultdict(list)`: append `f`
under key `v`, creating the entry when absent. -/
def appendFacet (m : List (List ℚ × List Facet)) (v : List ℚ) (f : Facet) :
    List (List ℚ × List Facet) :=
  match m with
  | [] => [(v, [f])]
  | (k, fs) :: rest =>
    if k = v then (k, fs ++ [f]) :: rest else (k, fs) :: appendFacet rest v f

/-- Reading the vertex index: the list stored under key `v`, if any. -/
def lookupKey (m : List (List ℚ × List Facet)) (v : List ℚ) :
    Option (List Facet) :=
  match m with
  | [] => none
  | (k, fs) :: rest => if k = v then some fs else lookupKey rest v

/-- Models `Surface.add_facet(n, verts)`: build the `Facet`, add its area to the
running total (`set_area`), update the six extents from the facet's first
vertex only (`set_min_max`), append the facet to `self.facets`, and append
it to the index entry of every tuple in `verts`. -/
noncomputable def Surface.add_facet (s : Surface) (n : Option (List ℚ))
    (verts : List (List ℚ)) : Option Surface :=
  (mkFacet n verts).bind fun f =>
  some { name := s.name,
         area := s.area + f.area,
         facets := s.facets ++ [f],
         vertices := verts.foldl (fun m v => appendFacet m v f) s.vertices,
         min_x := min s.min_x f.A.x, max_x := max s.max_x f.A.x,
         min_y := min s.min_y f.A.y, max_y := max s.max_y f.A.y,
         min_z := min s.min_z f.A.z, max_z := max s.max_z f.A.z }

/-- Models `Surface.find_facets(vert)`: the `defaultdict` read — the stored list
for a known key, the empty list for an unknown one (never an error). -/
def Surface.find_facets (s : Surface) (v : List ℚ) : List Facet :=
  (lookupKey s.vertices v).getD []

/-- Models `Surface.find_dims`: `(max_x - min_x, max_y - min_y, max_z - min_z)`. -/
def Surface.find_dims (s : Surface) : ℚ × ℚ × ℚ :=
  (s.max_x - s.min_x, s.max_y - s.min_y, s.max_z - s.min_z)

/-- Models `Surface.find_bounds`: the 8 corner tuples built from `find_dims`,
in the source's order. -/
def Surface.find_bounds (s : Surface) : List (ℚ × ℚ × ℚ) :=
  [(0, 0, 0), (0, 0, s.find_dims.2.2), (0, s.find_dims.2.1, 0),
   (0, s.find_dims.2.1, s.find_dims.2.2),
   (s.find_dims.1, 0, 0), (s.find_dims.1, 0, s.find_dims.2.2),
   (s.find_dims.1, s.find_dims.2.1, 0),
   (s.find_dims.1, s.find_dims.2.1, s.find_dims.2.2)]

/-- Models `Surface.get_bounding_box_volume`: `X*Y*Z` from `find_dims`. -/
def Surface.get_bounding_box_volume (s : Surface) : ℚ :=
  s.find_dims.1 * s.find_dims.2.1 * s.find_dims.2.2

/-! ### Tokenizing and numeric parsing -/

/-- Helper for `splitWs`: split a character list into maximal
whitespace-free words, accumulating the (reversed) current word. -/
def splitWsAux : List Char → List Char → List String
  | [], acc => if acc = [] then [] else [String.mk acc.reverse]
  | c :: cs, acc =>
    if c.isWhitespace then
      (if acc = [] then [] else [String.mk acc.reverse]) ++ splitWsAux cs []
    else
      splitWsAux cs (c :: acc)

/-- Python `str.split()` with no separator: split on runs of whitespace,
never producing empty words. -/
def splitWs (s : String) : List String :=
  splitWsAux s.data []

/-- One decimal digit's value, `none` on a non-digit. -/
def digitVal (c : Char) : Option ℕ :=
  if c.isDigit then some (c.toNat - 48) else none

/-- Digits-to-number accumulator; `none` as soon as a non-digit appears. -/
def digitsVal : List Char → ℕ → Option ℕ
  | [], acc => some acc
  | c :: cs, acc => do digitsVal cs (10 * acc + (← digitVal c))

/-- Strip an optional leading sign, returning it as `±1`. -/
def parseSign : List Char → ℤ × List Char
  | '-' :: cs => (-1, cs)
  | '+' :: cs => (1, cs)
  | cs => (1, cs)

/-- Split a character list at the first character satisfying `p`;
`none` in the second component when no such character occurs. -/
def splitOnChar (p : Char → Bool) : List Char → List Char × Option (List Char)
  | [] => ([], none)
  | c :: cs =>
    if p c then ([], some cs)
    else
      let r := splitOnChar p cs
      (c :: r.1, r.2)

/-- Python `float(s)` on decimal literals: optional sign, digits with an
optional fractional part, optional `e`/`E` exponent; `none` when the token
is not such a literal (Python raises `ValueError`). Special spellings such
as `inf`/`nan` are outside the model. The exponent-free integer case is
returned via a plain integer cast; the general case multiplies by the
appropriate power of ten — both equal `sign * digits * 10 ^ (exp - fracLen)`. -/
def parseFloat (s : String) : Option ℚ := do
  let (sg, cs) := parseSign s.data
  let (mant, expPart) := splitOnChar (fun c => c == 'e' || c == 'E') cs
  let (ip, fpOpt) := splitOnChar (fun c => c == '.') mant
  let fp := fpOpt.getD []
  if ip ++ fp = [] then none
  else do
    let m ← digitsVal (ip ++ fp) 0
    let e : ℤ ←
      match expPart with
      | none => some 0
      | some ecs =>
        match parseSign ecs with
        | (esg, ds) =>
          if ds = [] then none
          else do
            let n ← digitsVal ds 0
            some (esg * n)
    let shift : ℤ := e - fp.length
    if shift = 0 then some ((sg * m : ℤ) : ℚ)
    else some (((sg * m : ℤ) : ℚ) * (10 : ℚ) ^ shift)

/-- Models `_parse_line`: `l.split()` and then `(key_val[0], key_val[1:])`;
`none` models the `IndexError` on a blank / whitespace-only line. -/
def _parse_line (l : String) : Option (String × List String) :=
  match splitWs l with
  | [] => none
  | k :: rest => some (k, rest)

/-! ### The load loop -/

/-- The local parse state of `Surface.load`: the pending `normal`,
the pending `vertices` list, and the surface being populated. -/
structure LoadState where
  normal : Option (List ℚ)
  vertices : List (List ℚ)
  surf : Surface

/-- One iteration of the `for line in fp` loop in `Surface.load`:
dispatch on the first word of the line exactly as the source's
`if`/`elif` chain does. -/
noncomputable def loadStep (st : LoadState) (line : String) :
    Option LoadState :=
  (_parse_line line).bind fun kv =>
    if kv.1 = "solid" then
      some { st with surf := st.surf.set_name kv.2 }
    else if kv.1 = "facet" then
      ((kv.2.drop 1).mapM parseFloat).bind fun n =>
        some { st with normal := some n }
    else if kv.1 = "vertex" then
      (kv.2.mapM parseFloat).bind fun v =>
        some { st with vertices := st.vertices ++ [v] }
    else if kv.1 = "endfacet" then
      (st.surf.add_facet st.normal st.vertices).bind fun s =>
        some { normal := none, vertices := [], surf := s }
    else
      some st

/-- The whole loop body of `Surface.load` run over a list of lines from a
given parse state: process each line in order, stopping with `none` as soon
as one raises. -/
noncomputable def loadAux : List String → LoadState → Option LoadState
  | [], st => some st
  | l :: ls, st => (loadStep st l).bind (loadAux ls)

/-- Models `Surface.load`: start with `normal, vertices = None, []`, run the loop
over every line, and keep the populated surface (the pending buffer is
local to `load` and dropped at the end). -/
noncomputable def Surface.load (s : Surface) (lines : List String) :
    Option Surface :=
  (loadAux lines { normal := none, vertices := [], surf := s }).map
    (fun st => st.surf)

/-- Whether a line's first word is `endfacet` — on a successfully loaded
input these are exactly the lines that complete a facet block. -/
def isEndfacetLine (l : String) : Bool :=
  (splitWs l).head? == some ("endfacet")

/-! ### Geometry lemmas for the Heron-area claims -/

/-- The radicand of Heron's formula as computed by `find_area`
(before the final `** .5`). -/
noncomputable def heron_radicand (A B C : Point) : ℝ :=
  (0.5 * (_distance A B + _distance B C + _distance C A)) *
    (0.5 * (_distance A B + _distance B C + _distance C A) - _distance A B) *
    (0.5 * (_distance A B + _distance B C + _distance C A) - _distance B C) *
    (0.5 * (_distance A B + _distance B C + _distance C A) - _distance C A)

lemma find_area_eq (A B C : Point) :
    find_area A B C = heron_radicand A B C ^ (0.5 : ℝ) := rfl

lemma rpow_half_eq_sqrt (x : ℝ) :
    x ^ (0.5 : ℝ) = Real.sqrt x := by
  rw [Real.sqrt_eq_rpow]
  norm_num

lemma _distance_eq_sqrt (p1 p2 : Point) :
    _distance p1 p2 =
      Real.sqrt (((p2.x : ℝ) - (p1.x : ℝ)) ^ 2 + ((p2.y : ℝ) - (p1.y : ℝ)) ^ 2 +
        ((p2.z : ℝ) - (p1.z : ℝ)) ^ 2) := by
  unfold _distance
  rw [rpow_half_eq_sqrt]

lemma _distance_sq (p1 p2 : Point) :
    _distance p1 p2 ^ 2 =
      ((p2.x : ℝ) - (p1.x : ℝ)) ^ 2 + ((p2.y : ℝ) - (p1.y : ℝ)) ^ 2 +
        ((p2.z : ℝ) - (p1.z : ℝ)) ^ 2 := by
  rw [_distance_eq_sqrt]
  exact Real.sq_sqrt (by positivity)

/-- The Heron radicand over actual Euclidean distances is a quarter of the
squared norm of the cross product of the edge vectors `B - A` and `C - A`. -/
lemma heron_radicand_eq_cross (A B C : Point) :
    heron_radicand A B C =
      ((((B.y : ℝ) - A.y) * ((C.z : ℝ) - A.z) -
          ((B.z : ℝ) - A.z) * ((C.y : ℝ) - A.y)) ^ 2 +
        (((B.z : ℝ) - A.z) * ((C.x : ℝ) - A.x) -
          ((B.x : ℝ) - A.x) * ((C.z : ℝ) - A.z)) ^ 2 +
        (((B.x : ℝ) - A.x) * ((C.y : ℝ) - A.y) -
          ((B.y : ℝ) - A.y) * ((C.x : ℝ) - A.x)) ^ 2) / 4 := by
  have key : ∀ a b c : ℝ,
      (0.5 * (a + b + c)) * (0.5 * (a + b + c) - a) *
        (0.5 * (a + b + c) - b) * (0.5 * (a + b + c) - c) =
      (2 * (a ^ 2 * b ^ 2) + 2 * (b ^ 2 * c ^ 2) + 2 * (c ^ 2 * a ^ 2) -
        (a ^ 2) ^ 2 - (b ^ 2) ^ 2 - (c ^ 2) ^ 2) / 16 := by
    intro a b c
    ring
  unfold heron_radicand
  rw [key, _distance_sq A B, _distance_sq B C, _distance_sq C A]
  ring

lemma heron_radicand_nonneg (A B C : Point) : 0 ≤ heron_radicand A B C := by
  rw [heron_radicand_eq_cross]
  positivity

/-- Collinearity of three points: one of the two edge vectors out of `A`
is a scalar multiple of the other (this covers every degenerate case,
including repeated points). -/
def collinear (A B C : Point) : Prop :=
  ∃ t : ℚ,
    (B.x - A.x = t * (C.x - A.x) ∧ B.y - A.y = t * (C.y - A.y) ∧
      B.z - A.z = t * (C.z - A.z)) ∨
    (C.x - A.x = t * (B.x - A.x) ∧ C.y - A.y = t * (B.y - A.y) ∧
      C.z - A.z = t * (B.z - A.z))

lemma heron_radicand_of_collinear (A B C : Point) (h : collinear A B C) :
    heron_radicand A B C = 0 := by
  rw [heron_radicand_eq_cross]
  obtain ⟨t, h | h⟩ := h
  · obtain ⟨hx, hy, hz⟩ := h
    have hx' : (B.x : ℝ) - A.x = (t : ℝ) * ((C.x : ℝ) - A.x) := by
      exact_mod_cast hx
    have hy' : (B.y : ℝ) - A.y = (t : ℝ) * ((C.y : ℝ) - A.y) := by
      exact_mod_cast hy
    have hz' : (B.z : ℝ) - A.z = (t : ℝ) * ((C.z : ℝ) - A.z) := by
      exact_mod_cast hz
    rw [hx', hy', hz']
    ring
  · obtain ⟨hx, hy, hz⟩ := h
    have hx' : (C.x : ℝ) - A.x = (t : ℝ) * ((B.x : ℝ) - A.x) := by
      exact_mod_cast hx
    have hy' : (C.y : ℝ) - A.y = (t : ℝ) * ((B.y : ℝ) - A.y) := by
      exact_mod_cast hy
    have hz' : (C.z : ℝ) - A.z = (t : ℝ) * ((B.z : ℝ) - A.z) := by
      exact_mod_cast hz
    rw [hx', hy', hz']
    ring

/-! ### Claim theorems: Facet geometry -/

/-- Claim C1: for every Facet constructed from three vertices `A`, `B`, `C`,
the stored `area` equals `sqrt(s*(s-ab)*(s-bc)*(s-ca))` where `ab`, `bc`,
`ca` are the pairwise Euclidean distances and `s = (ab+bc+ca)/2`, computed
once at construction (the constructor stores exactly `find_area A B C`). -/
theorem c1_facet_area_heron (n : Option (List ℚ)) (A B C : Point) :
    mkFacet n [[A.x, A.y, A.z], [B.x, B.y, B.z], [C.x, C.y, C.z]] =
      some { N := n, A := A, B := B, C := C, area := find_area A B C } ∧
    find_area A B C =
      Real.sqrt
        (let ab := Real.sqrt (((B.x : ℝ) - A.x) ^ 2 + ((B.y : ℝ) - A.y) ^ 2 +
          ((B.z : ℝ) - A.z) ^ 2)
         let bc := Real.sqrt (((C.x : ℝ) - B.x) ^ 2 + ((C.y : ℝ) - B.y) ^ 2 +
          ((C.z : ℝ) - B.z) ^ 2)
         let ca := Real.sqrt (((A.x : ℝ) - C.x) ^ 2 + ((A.y : ℝ) - C.y) ^ 2 +
          ((A.z : ℝ) - C.z) ^ 2)
         let s := (ab + bc + ca) / 2
         s * (s - ab) * (s - bc) * (s - ca)) := by
  constructor
  · rfl
  · rw [find_area_eq, rpow_half_eq_sqrt]
    congr 1
    simp only [← _distance_eq_sqrt]
    unfold heron_radicand
    ring

/-- Claim C2: for a degenerate facet whose three vertices are collinear,
the Heron radicand is exactly zero and the stored area is `0` (no clamping
exists in the source; in exact arithmetic none is needed). -/
theorem c2_collinear_area_zero (n : Option (List ℚ)) (A B C : Point)
    (h : collinear A B C) :
    heron_radicand A B C = 0 ∧ find_area A B C = 0 ∧
    mkFacet n [[A.x, A.y, A.z], [B.x, B.y, B.z], [C.x, C.y, C.z]] =
      some { N := n, A := A, B := B, C := C, area := 0 } := by
  have h0 := heron_radicand_of_collinear A B C h
  have harea : find_area A B C = 0 := by
    rw [find_area_eq, h0, Real.zero_rpow (by norm_num)]
  refine ⟨h0, harea, ?_⟩
  have hmk : mkFacet n [[A.x, A.y, A.z], [B.x, B.y, B.z], [C.x, C.y, C.z]] =
      some { N := n, A := A, B := B, C := C, area := find_area A B C } := rfl
  rw [hmk, harea]

/-- Witness for C2 at the concrete collinear triple
`(0,0,0)`, `(1,1,1)`, `(2,2,2)`. -/
theorem c2_collinear_area_zero_witness :
    collinear ⟨0, 0, 0⟩ ⟨1, 1, 1⟩ ⟨2, 2, 2⟩ ∧
    find_area ⟨0, 0, 0⟩ ⟨1, 1, 1⟩ ⟨2, 2, 2⟩ = 0 := by
  have hc : collinear ⟨0, 0, 0⟩ ⟨1, 1, 1⟩ ⟨2, 2, 2⟩ := by
    refine ⟨1 / 2, Or.inl ?_⟩
    norm_num
  exact ⟨hc, (c2_collinear_area_zero none _ _ _ hc).2.1⟩

/-! ### Lemmas about `add_facet` -/

lemma mkFacet_cons (n : Option (List ℚ)) (a b c : List ℚ)
    (rest : List (List ℚ)) :
    mkFacet n (a :: b :: c :: rest) =
      (mkPoint a).bind fun A =>
        (mkPoint b).bind fun B =>
          (mkPoint c).bind fun C => some (facetOf n A B C) := rfl

lemma mkFacet_three (n : Option (List ℚ)) (a b c : List ℚ)
    (rest : List (List ℚ)) (A B C : Point) (hA : mkPoint a = some A)
    (hB : mkPoint b = some B) (hC : mkPoint c = some C) :
    mkFacet n (a :: b :: c :: rest) = some (facetOf n A B C) := by
  rw [mkFacet_cons, hA, Option.some_bind, hB, Option.some_bind, hC,
    Option.some_bind]

lemma add_facet_three (s : Surface) (n : Option (List ℚ)) (a b c : List ℚ)
    (A B C : Point) (hA : mkPoint a = some A) (hB : mkPoint b = some B)
    (hC : mkPoint c = some C) :
    s.add_facet n [a, b, c] = some
      { name := s.name,
        area := s.area + find_area A B C,
        facets := s.facets ++ [facetOf n A B C],
        vertices := [a, b, c].foldl
          (fun m v => appendFacet m v (facetOf n A B C)) s.vertices,
        min_x := min s.min_x A.x, max_x := max s.max_x A.x,
        min_y := min s.min_y A.y, max_y := max s.max_y A.y,
        min_z := min s.min_z A.z, max_z := max s.max_z A.z } := by
  unfold Surface.add_facet
  rw [mkFacet_three n a b c [] A B C hA hB hC]
  rfl

lemma add_facet_inv (s : Surface) (n : Option (List ℚ)) (a b c : List ℚ)
    (s' : Surface) (h : s.add_facet n [a, b, c] = some s') :
    ∃ A B C, mkPoint a = some A ∧ mkPoint b = some B ∧ mkPoint c = some C := by
  unfold Surface.add_facet at h
  rw [mkFacet_cons] at h
  cases hA : mkPoint a with
  | none => rw [hA, Option.none_bind, Option.none_bind] at h; cases h
  | some A =>
    rw [hA, Option.some_bind] at h
    cases hB : mkPoint b with
    | none => rw [hB, Option.none_bind, Option.none_bind] at h; cases h
    | some B =>
      rw [hB, Option.some_bind] at h
      cases hC : mkPoint c with
      | none => rw [hC, Option.none_bind, Option.none_bind] at h; cases h
      | some C => exact ⟨A, B, C, rfl, rfl, rfl⟩

/-- Claim C3: the six running extents (and everything derived from them:
`find_dims`, `find_bounds`, `get_bounding_box_volume`) are updated from the
facet's first vertex only — replacing the second and third vertices of an
ingested facet never changes them. -/
theorem c3_extents_first_vertex_only (s : Surface) (n : Option (List ℚ))
    (a b c b' c' : List ℚ) (s1 s2 : Surface)
    (h1 : s.add_facet n [a, b, c] = some s1)
    (h2 : s.add_facet n [a, b', c'] = some s2) :
    s1.min_x = s2.min_x ∧ s1.max_x = s2.max_x ∧ s1.min_y = s2.min_y ∧
    s1.max_y = s2.max_y ∧ s1.min_z = s2.min_z ∧ s1.max_z = s2.max_z ∧
    s1.find_dims = s2.find_dims ∧ s1.find_bounds = s2.find_bounds ∧
    s1.get_bounding_box_volume = s2.get_bounding_box_volume := by
  obtain ⟨A, B, C, hA, hB, hC⟩ := add_facet_inv s n a b c s1 h1
  obtain ⟨A', B', C', hA', hB', hC'⟩ := add_facet_inv s n a b' c' s2 h2
  rw [hA] at hA'
  obtain rfl := Option.some.inj hA'
  rw [add_facet_three s n a b c A B C hA hB hC] at h1
  rw [add_facet_three s n a b' c' A B' C' hA hB' hC'] at h2
  have e1 := Option.some.inj h1
  have e2 := Option.some.inj h2
  subst e1
  subst e2
  refine ⟨rfl, rfl, rfl, rfl, rfl, rfl, ?_, ?_, ?_⟩
  · unfold Surface.find_dims
    rfl
  · unfold Surface.find_bounds Surface.find_dims
    rfl
  · unfold Surface.get_bounding_box_volume Surface.find_dims
    rfl

/-- Witness for C3: swapping the second and third vertices for different
ones leaves `find_dims` unchanged. -/
theorem c3_extents_first_vertex_only_witness :
    (Surface.init.add_facet none [[1, 2, 3], [4, 5, 6], [7, 8, 9]]).map
        Surface.find_dims =
      (Surface.init.add_facet none [[1, 2, 3], [0, 0, 0], [9, 9, 9]]).map
        Surface.find_dims ∧
    (Surface.init.add_facet none [[1, 2, 3], [4, 5, 6], [7, 8, 9]]).isSome =
      true := by
  obtain ⟨x1, e1⟩ : ∃ x,
      Surface.init.add_facet none [[1, 2, 3], [4, 5, 6], [7, 8, 9]] = some x :=
    ⟨_, by with_unfolding_all rfl⟩
  obtain ⟨x2, e2⟩ : ∃ x,
      Surface.init.add_facet none [[1, 2, 3], [0, 0, 0], [9, 9, 9]] = some x :=
    ⟨_, by with_unfolding_all rfl⟩
  have h := c3_extents_first_vertex_only Surface.init none
    [1, 2, 3] [4, 5, 6] [7, 8, 9] [0, 0, 0] [9, 9, 9] x1 x2 e1 e2
  refine ⟨?_, ?_⟩
  · rw [e1, e2]
    simp only [Option.map_some']
    rw [h.2.2.2.2.2.2.1]
  · rw [e1]
    rfl

/-- Claim C9: `find_bounds` returns exactly the 8 corner points of the
axis-aligned box with one corner at the origin and the opposite corner at
`find_dims` — the set `0,X × 0,Y × 0,Z` — and depends on the extents only
through `find_dims` (the min offsets are discarded). -/
theorem c9_bounds_origin_box (s : Surface) :
    s.find_bounds =
      [(0, 0, 0), (0, 0, s.find_dims.2.2), (0, s.find_dims.2.1, 0),
       (0, s.find_dims.2.1, s.find_dims.2.2), (s.find_dims.1, 0, 0),
       (s.find_dims.1, 0, s.find_dims.2.2),
       (s.find_dims.1, s.find_dims.2.1, 0),
       (s.find_dims.1, s.find_dims.2.1, s.find_dims.2.2)] ∧
    (∀ p : ℚ × ℚ × ℚ, p ∈ s.find_bounds ↔
      ((p.1 = 0 ∨ p.1 = s.find_dims.1) ∧
       (p.2.1 = 0 ∨ p.2.1 = s.find_dims.2.1) ∧
       (p.2.2 = 0 ∨ p.2.2 = s.find_dims.2.2))) ∧
    (∀ s2 : Surface, s.find_dims = s2.find_dims →
      s.find_bounds = s2.find_bounds) := by
  refine ⟨rfl, ?_, ?_⟩
  · rintro ⟨p1, p2, p3⟩
    simp only [Surface.find_bounds, List.mem_cons, List.not_mem_nil, or_false,
      Prod.mk.injEq]
    constructor
    · rintro (h | h | h | h | h | h | h | h) <;> obtain ⟨h1, h2, h3⟩ := h <;>
        exact ⟨by tauto, by tauto, by tauto⟩
    · rintro ⟨h1 | h1, h2 | h2, h3 | h3⟩ <;> tauto
  · intro s2 hd
    unfold Surface.find_bounds
    rw [hd]

/-- Witness for C9 at the fresh surface, whose dims are `(0, 0, 0)`. -/
theorem c9_bounds_origin_box_witness :
    Surface.init.find_bounds =
      [(0, 0, 0), (0, 0, 0), (0, 0, 0), (0, 0, 0), (0, 0, 0), (0, 0, 0),
       (0, 0, 0), (0, 0, 0)] ∧
    ((0 : ℚ), (0 : ℚ), (0 : ℚ)) ∈ Surface.init.find_bounds := by
  have h := c9_bounds_origin_box Surface.init
  constructor
  · rw [h.1]
    with_unfolding_all rfl
  · exact (h.2.1 (0, 0, 0)).mpr (by norm_num)

/-! ### Blank lines make `load` raise -/

lemma splitWsAux_all_ws (cs : List Char) (h : ∀ c ∈ cs, c.isWhitespace) :
    splitWsAux cs [] = [] := by
  induction cs with
  | nil => rfl
  | cons c cs ih =>
    have hc : c.isWhitespace := h c (List.mem_cons_self c cs)
    simp [splitWsAux, hc, ih (fun x hx => h x (List.mem_cons_of_mem c hx))]

lemma _parse_line_ws (l : String) (h : ∀ c ∈ l.data, c.isWhitespace) :
    _parse_line l = none := by
  unfold _parse_line splitWs
  rw [splitWsAux_all_ws l.data h]

lemma loadStep_ws (st : LoadState) (l : String)
    (h : ∀ c ∈ l.data, c.isWhitespace) : loadStep st l = none := by
  unfold loadStep
  rw [_parse_line_ws l h]
  rfl

/-- Claim C10: a blank or whitespace-only line anywhere in the input makes
`load` fail (the `key_val[0]` lookup on the empty token list raises), it is
not skipped as a no-op. -/
theorem c10_blank_line_fails (s : Surface) (lines : List String) (l : String)
    (hmem : l ∈ lines) (hws : ∀ c ∈ l.data, c.isWhitespace) :
    s.load lines = none := by
  suffices h : ∀ st : LoadState, loadAux lines st = none by
    unfold Surface.load
    rw [h]
    rfl
  induction lines with
  | nil => cases hmem
  | cons x xs ih =>
    intro st
    rcases List.mem_cons.mp hmem with rfl | hmem'
    · show (loadStep st l).bind (loadAux xs) = none
      rw [loadStep_ws st l hws]
      rfl
    · show (loadStep st x).bind (loadAux xs) = none
      cases h1 : loadStep st x with
      | none => rfl
      | some st1 =>
        simp only [Option.some_bind]
        exact ih hmem' st1

/-- Witness for C10: a whitespace-only second line fails the whole load. -/
theorem c10_blank_line_fails_witness :
    Surface.init.load ["solid a", "  "] = none := by
  refine c10_blank_line_fails Surface.init _ ("  ") ?_ ?_
  · simp
  · decide

/-! ### Structure of `loadStep` by token kind -/

lemma _parse_line_inv (l : String) (k : String) (v : List String)
    (h : _parse_line l = some (k, v)) : splitWs l = k :: v := by
  unfold _parse_line at h
  cases hs : splitWs l with
  | nil =>
    rw [hs] at h
    exact Option.noConfusion h
  | cons k2 v2 =>
    rw [hs] at h
    cases Option.some.inj h
    rfl

lemma loadStep_solid (st : LoadState) (l : String) (v : List String)
    (h : _parse_line l = some ("solid", v)) :
    loadStep st l = some { st with surf := st.surf.set_name v } := by
  unfold loadStep
  rw [h, Option.some_bind]
  rfl

lemma loadStep_facet (st : LoadState) (l : String) (v : List String)
    (n : List ℚ) (h : _parse_line l = some ("facet", v))
    (hn : (v.drop 1).mapM parseFloat = some n) :
    loadStep st l = some { st with normal := some n } := by
  unfold loadStep
  rw [h, Option.some_bind]
  show ((v.drop 1).mapM parseFloat).bind
    (fun w => (some { st with normal := some w } : Option LoadState)) =
    some { st with normal := some n }
  rw [hn, Option.some_bind]

lemma loadStep_vertex (st : LoadState) (l : String) (v : List String)
    (w : List ℚ) (h : _parse_line l = some ("vertex", v))
    (hw : v.mapM parseFloat = some w) :
    loadStep st l = some { st with vertices := st.vertices ++ [w] } := by
  unfold loadStep
  rw [h, Option.some_bind]
  show (v.mapM parseFloat).bind
    (fun u => (some { st with vertices := st.vertices ++ [u] } :
      Option LoadState)) = some { st with vertices := st.vertices ++ [w] }
  rw [hw, Option.some_bind]

lemma loadStep_endfacet (st : LoadState) (l : String) (v : List String)
    (s2 : Surface) (h : _parse_line l = some ("endfacet", v))
    (hadd : st.surf.add_facet st.normal st.vertices = some s2) :
    loadStep st l = some { normal := none, vertices := [], surf := s2 } := by
  unfold loadStep
  rw [h, Option.some_bind]
  show (st.surf.add_facet st.normal st.vertices).bind
    (fun s3 => (some { normal := none, vertices := [], surf := s3 } :
      Option LoadState)) = some { normal := none, vertices := [], surf := s2 }
  rw [hadd, Option.some_bind]

lemma loadStep_other (st : LoadState) (l : String) (k : String)
    (v : List String) (h : _parse_line l = some (k, v))
    (h1 : k ≠ "solid") (h2 : k ≠ "facet") (h3 : k ≠ "vertex")
    (h4 : k ≠ "endfacet") : loadStep st l = some st := by
  unfold loadStep
  rw [h, Option.some_bind]
  show (if k = "solid" then
      (some { st with surf := st.surf.set_name v } : Option LoadState)
    else if k = "facet" then
      ((v.drop 1).mapM parseFloat).bind fun n =>
        (some { st with normal := some n } : Option LoadState)
    else if k = "vertex" then
      (v.mapM parseFloat).bind fun w =>
        (some { st with vertices := st.vertices ++ [w] } : Option LoadState)
    else if k = "endfacet" then
      (st.surf.add_facet st.normal st.vertices).bind fun s2 =>
        (some { normal := none, vertices := [], surf := s2 } :
          Option LoadState)
    else some st) = some st
  rw [if_neg h1, if_neg h2, if_neg h3, if_neg h4]

lemma add_facet_eq (s : Surface) (n : Option (List ℚ))
    (verts : List (List ℚ)) (f : Facet) (hf : mkFacet n verts = some f) :
    s.add_facet n verts = some
      { name := s.name,
        area := s.area + f.area,
        facets := s.facets ++ [f],
        vertices := verts.foldl (fun m v => appendFacet m v f) s.vertices,
        min_x := min s.min_x f.A.x, max_x := max s.max_x f.A.x,
        min_y := min s.min_y f.A.y, max_y := max s.max_y f.A.y,
        min_z := min s.min_z f.A.z, max_z := max s.max_z f.A.z } := by
  unfold Surface.add_facet
  rw [hf, Option.some_bind]

lemma add_facet_inv_any (s : Surface) (n : Option (List ℚ))
    (verts : List (List ℚ)) (s' : Surface)
    (h : s.add_facet n verts = some s') :
    ∃ f, mkFacet n verts = some f ∧
      s' = { name := s.name,
             area := s.area + f.area,
             facets := s.facets ++ [f],
             vertices := verts.foldl (fun m v => appendFacet m v f) s.vertices,
             min_x := min s.min_x f.A.x, max_x := max s.max_x f.A.x,
             min_y := min s.min_y f.A.y, max_y := max s.max_y f.A.y,
             min_z := min s.min_z f.A.z, max_z := max s.max_z f.A.z } := by
  unfold Surface.add_facet at h
  cases hf : mkFacet n verts with
  | none => rw [hf, Option.none_bind] at h; cases h
  | some f =>
    rw [hf, Option.some_bind] at h
    exact ⟨f, rfl, (Option.some.inj h).symm⟩

lemma loadStep_facet_none (st : LoadState) (l : String) (v : List String)
    (h : _parse_line l = some ("facet", v))
    (hn : (v.drop 1).mapM parseFloat = none) : loadStep st l = none := by
  unfold loadStep
  rw [h, Option.some_bind]
  show ((v.drop 1).mapM parseFloat).bind
    (fun w => (some { st with normal := some w } : Option LoadState)) = none
  rw [hn, Option.none_bind]

lemma loadStep_vertex_none (st : LoadState) (l : String) (v : List String)
    (h : _parse_line l = some ("vertex", v))
    (hw : v.mapM parseFloat = none) : loadStep st l = none := by
  unfold loadStep
  rw [h, Option.some_bind]
  show (v.mapM parseFloat).bind
    (fun u => (some { st with vertices := st.vertices ++ [u] } :
      Option LoadState)) = none
  rw [hw, Option.none_bind]

lemma loadStep_endfacet_none (st : LoadState) (l : String) (v : List String)
    (h : _parse_line l = some ("endfacet", v))
    (hadd : st.surf.add_facet st.normal st.vertices = none) :
    loadStep st l = none := by
  unfold loadStep
  rw [h, Option.some_bind]
  show (st.surf.add_facet st.normal st.vertices).bind
    (fun s3 => (some { normal := none, vertices := [], surf := s3 } :
      Option LoadState)) = none
  rw [hadd, Option.none_bind]

lemma isEndfacetLine_eq (l : String) (k : String) (v : List String)
    (hp : _parse_line l = some (k, v)) :
    isEndfacetLine l = (k == "endfacet") := by
  unfold isEndfacetLine
  rw [_parse_line_inv l k v hp]
  rfl

lemma loadAux_append (l1 l2 : List String) : ∀ st : LoadState,
    loadAux (l1 ++ l2) st = (loadAux l1 st).bind (loadAux l2) := by
  induction l1 with
  | nil => intro st; rfl
  | cons l ls ih =>
    intro st
    show (loadStep st l).bind (loadAux (ls ++ l2)) =
      ((loadStep st l).bind (loadAux ls)).bind (loadAux l2)
    cases h : loadStep st l with
    | none => rfl
    | some st1 =>
      rw [Option.some_bind, Option.some_bind]
      exact ih st1

lemma loadAux_singleton (l : String) (st : LoadState) :
    loadAux [l] st = loadStep st l := by
  show (loadStep st l).bind (loadAux []) = loadStep st l
  cases h : loadStep st l with
  | none => rfl
  | some st1 => rfl

/-! ### Folded-extent lemmas -/

lemma foldl_min_le (g : Facet → ℚ) : ∀ (l : List Facet) (i : ℚ),
    l.foldl (fun m f => min m (g f)) i ≤ i := by
  intro l
  induction l with
  | nil => intro i; exact le_refl i
  | cons f t ih =>
    intro i
    show t.foldl (fun m f => min m (g f)) (min i (g f)) ≤ i
    exact le_trans (ih _) (min_le_left _ _)

lemma le_foldl_max (g : Facet → ℚ) : ∀ (l : List Facet) (i : ℚ),
    i ≤ l.foldl (fun m f => max m (g f)) i := by
  intro l
  induction l with
  | nil => intro i; exact le_refl i
  | cons f t ih =>
    intro i
    show i ≤ t.foldl (fun m f => max m (g f)) (max i (g f))
    exact le_trans (le_max_left _ _) (ih _)

lemma foldl_max_le_bound (g : Facet → ℚ) (B : ℚ) : ∀ (l : List Facet) (i : ℚ),
    i ≤ B → (∀ f ∈ l, g f ≤ B) →
    l.foldl (fun m f => max m (g f)) i ≤ B := by
  intro l
  induction l with
  | nil => intro i hi _; exact hi
  | cons f t ih =>
    intro i hi hall
    show t.foldl (fun m f => max m (g f)) (max i (g f)) ≤ B
    exact ih _ (max_le hi (hall f (List.mem_cons_self f t)))
      (fun f2 hf2 => hall f2 (List.mem_cons_of_mem f hf2))

lemma bound_le_foldl_min (g : Facet → ℚ) (B : ℚ) : ∀ (l : List Facet) (i : ℚ),
    B ≤ i → (∀ f ∈ l, B ≤ g f) →
    B ≤ l.foldl (fun m f => min m (g f)) i := by
  intro l
  induction l with
  | nil => intro i hi _; exact hi
  | cons f t ih =>
    intro i hi hall
    show B ≤ t.foldl (fun m f => min m (g f)) (min i (g f))
    exact ih _ (le_min hi (hall f (List.mem_cons_self f t)))
      (fun f2 hf2 => hall f2 (List.mem_cons_of_mem f hf2))

lemma le_foldl_max_of_mem (g : Facet → ℚ) : ∀ (l : List Facet) (i : ℚ)
    (f : Facet), f ∈ l → g f ≤ l.foldl (fun m f => max m (g f)) i := by
  intro l
  induction l with
  | nil => intro i f hf; cases hf
  | cons f2 t ih =>
    intro i f hf
    show g f ≤ t.foldl (fun m f => max m (g f)) (max i (g f2))
    rcases List.mem_cons.mp hf with rfl | hf2
    · exact le_trans (le_max_right _ _) (le_foldl_max g t _)
    · exact ih _ f hf2

/-! ### The load spine: what a successful load adds to the surface -/

lemma loadAux_spine : ∀ (lines : List String) (st st' : LoadState),
    loadAux lines st = some st' →
    ∃ new : List Facet,
      st'.surf.facets = st.surf.facets ++ new ∧
      st'.surf.area = st.surf.area + (new.map Facet.area).sum ∧
      st'.surf.min_x = new.foldl (fun m f => min m f.A.x) st.surf.min_x ∧
      st'.surf.max_x = new.foldl (fun m f => max m f.A.x) st.surf.max_x ∧
      st'.surf.min_y = new.foldl (fun m f => min m f.A.y) st.surf.min_y ∧
      st'.surf.max_y = new.foldl (fun m f => max m f.A.y) st.surf.max_y ∧
      st'.surf.min_z = new.foldl (fun m f => min m f.A.z) st.surf.min_z ∧
      st'.surf.max_z = new.foldl (fun m f => max m f.A.z) st.surf.max_z ∧
      new.length = lines.countP isEndfacetLine := by
  intro lines
  induction lines with
  | nil =>
    intro st st' h
    cases Option.some.inj h
    exact ⟨[], by simp, by simp, rfl, rfl, rfl, rfl, rfl, rfl, by simp⟩
  | cons l ls ih =>
    intro st st' h
    have h2 : (loadStep st l).bind (loadAux ls) = some st' := h
    cases hstep : loadStep st l with
    | none => rw [hstep, Option.none_bind] at h2; cases h2
    | some st1 =>
      rw [hstep, Option.some_bind] at h2
      obtain ⟨new1, hf, ha, hx1, hx2, hy1, hy2, hz1, hz2, hlen⟩ :=
        ih st1 st' h2
      cases hp : _parse_line l with
      | none =>
        unfold loadStep at hstep
        rw [hp, Option.none_bind] at hstep
        cases hstep
      | some kv =>
        obtain ⟨k, v⟩ := kv
        by_cases hk1 : k = "solid"
        · subst hk1
          rw [loadStep_solid st l v hp] at hstep
          cases Option.some.inj hstep
          refine ⟨new1, hf, ha, hx1, hx2, hy1, hy2, hz1, hz2, ?_⟩
          rw [List.countP_cons, isEndfacetLine_eq l _ v hp,
            if_neg (by decide)]
          simpa using hlen
        · by_cases hk2 : k = "facet"
          · subst hk2
            cases hm : (v.drop 1).mapM parseFloat with
            | none => rw [loadStep_facet_none st l v hp hm] at hstep; cases hstep
            | some n =>
              rw [loadStep_facet st l v n hp hm] at hstep
              cases Option.some.inj hstep
              refine ⟨new1, hf, ha, hx1, hx2, hy1, hy2, hz1, hz2, ?_⟩
              rw [List.countP_cons, isEndfacetLine_eq l _ v hp,
                if_neg (by decide)]
              simpa using hlen
          · by_cases hk3 : k = "vertex"
            · subst hk3
              cases hm : v.mapM parseFloat with
              | none =>
                rw [loadStep_vertex_none st l v hp hm] at hstep; cases hstep
              | some w =>
                rw [loadStep_vertex st l v w hp hm] at hstep
                cases Option.some.inj hstep
                refine ⟨new1, hf, ha, hx1, hx2, hy1, hy2, hz1, hz2, ?_⟩
                rw [List.countP_cons, isEndfacetLine_eq l _ v hp,
                  if_neg (by decide)]
                simpa using hlen
            · by_cases hk4 : k = "endfacet"
              · subst hk4
                cases hadd : st.surf.add_facet st.normal st.vertices with
                | none =>
                  rw [loadStep_endfacet_none st l v hp hadd] at hstep
                  cases hstep
                | some s2 =>
                  rw [loadStep_endfacet st l v s2 hp hadd] at hstep
                  cases Option.some.inj hstep
                  obtain ⟨f, hmk, hs2⟩ := add_facet_inv_any _ _ _ _ hadd
                  subst hs2
                  refine ⟨f :: new1, ?_, ?_, hx1, hx2, hy1, hy2, hz1, hz2, ?_⟩
                  · rw [hf]
                    show (st.surf.facets ++ [f]) ++ new1 =
                      st.surf.facets ++ (f :: new1)
                    simp
                  · rw [ha]
                    show (st.surf.area + f.area) + (new1.map Facet.area).sum =
                      st.surf.area + ((f :: new1).map Facet.area).sum
                    rw [List.map_cons, List.sum_cons, add_assoc]
                  · rw [List.countP_cons, isEndfacetLine_eq l _ v hp,
                      if_pos (by decide)]
                    simp [hlen]
              · rw [loadStep_other st l k v hp hk1 hk2 hk3 hk4] at hstep
                cases Option.some.inj hstep
                refine ⟨new1, hf, ha, hx1, hx2, hy1, hy2, hz1, hz2, ?_⟩
                rw [List.countP_cons, isEndfacetLine_eq l _ v hp,
                  if_neg (by simpa using hk4)]
                simpa using hlen

lemma load_inv (s : Surface) (lines : List String) (s' : Surface)
    (h : s.load lines = some s') :
    ∃ st' : LoadState,
      loadAux lines { normal := none, vertices := [], surf := s } = some st' ∧
      st'.surf = s' := by
  unfold Surface.load at h
  cases haux : loadAux lines { normal := none, vertices := [], surf := s } with
  | none => rw [haux] at h; cases h
  | some st' =>
    rw [haux] at h
    exact ⟨st', rfl, Option.some.inj h⟩

/-! ### Claim theorems: extents and facet blocks -/

/-- Claim C4: the six extents are seeded at `0` at surface creation; after
any successful load every min extent is `≤ 0` and every max extent is
`≥ 0`; and for a load whose facets' first vertices span `x ∈ 1,5`,
`y ∈ 2,6`, `z ∈ 0,3` (bounds attained), `find_dims` is `(5,6,3)` and the
bounding-box volume is `90`. -/
theorem c4_extents_seeded_at_zero :
    (Surface.init.min_x = 0 ∧ Surface.init.max_x = 0 ∧
     Surface.init.min_y = 0 ∧ Surface.init.max_y = 0 ∧
     Surface.init.min_z = 0 ∧ Surface.init.max_z = 0) ∧
    (∀ (lines : List String) (s' : Surface),
      Surface.init.load lines = some s' →
      s'.min_x ≤ 0 ∧ 0 ≤ s'.max_x ∧ s'.min_y ≤ 0 ∧ 0 ≤ s'.max_y ∧
      s'.min_z ≤ 0 ∧ 0 ≤ s'.max_z) ∧
    (∀ (lines : List String) (s' : Surface),
      Surface.init.load lines = some s' →
      (∀ f ∈ s'.facets, 1 ≤ f.A.x ∧ f.A.x ≤ 5 ∧ 2 ≤ f.A.y ∧ f.A.y ≤ 6 ∧
        0 ≤ f.A.z ∧ f.A.z ≤ 3) →
      (∃ f ∈ s'.facets, f.A.x = 5) → (∃ f ∈ s'.facets, f.A.y = 6) →
      (∃ f ∈ s'.facets, f.A.z = 3) →
      s'.find_dims = (5, 6, 3) ∧ s'.get_bounding_box_volume = 90) := by
  refine ⟨⟨rfl, rfl, rfl, rfl, rfl, rfl⟩, ?_, ?_⟩
  · intro lines s' h
    obtain ⟨st', haux, hsurf⟩ := load_inv Surface.init lines s' h
    subst hsurf
    obtain ⟨new, hf, ha, hx1, hx2, hy1, hy2, hz1, hz2, hlen⟩ :=
      loadAux_spine lines _ st' haux
    rw [hx1, hx2, hy1, hy2, hz1, hz2]
    exact ⟨foldl_min_le (fun f => f.A.x) new _,
      le_foldl_max (fun f => f.A.x) new _,
      foldl_min_le (fun f => f.A.y) new _,
      le_foldl_max (fun f => f.A.y) new _,
      foldl_min_le (fun f => f.A.z) new _,
      le_foldl_max (fun f => f.A.z) new _⟩
  · intro lines s' h hall ⟨fx, hfxm, hfx⟩ ⟨fy, hfym, hfy⟩ ⟨fz, hfzm, hfz⟩
    obtain ⟨st', haux, hsurf⟩ := load_inv Surface.init lines s' h
    subst hsurf
    obtain ⟨new, hf, ha, hx1, hx2, hy1, hy2, hz1, hz2, hlen⟩ :=
      loadAux_spine lines _ st' haux
    have hfn : st'.surf.facets = new := by rw [hf]; rfl
    rw [hfn] at hall hfxm hfym hfzm
    have hmaxx : st'.surf.max_x = 5 := by
      rw [hx2]
      refine le_antisymm ?_ ?_
      · exact foldl_max_le_bound (fun f => f.A.x) 5 new _
          (show (0 : ℚ) ≤ 5 by norm_num)
          (fun f hfm => (hall f hfm).2.1)
      · rw [← hfx]
        exact le_foldl_max_of_mem (fun f => f.A.x) new _ fx hfxm
    have hminx : st'.surf.min_x = 0 := by
      rw [hx1]
      refine le_antisymm (foldl_min_le (fun f => f.A.x) new _) ?_
      exact bound_le_foldl_min (fun f => f.A.x) 0 new _
        (show (0 : ℚ) ≤ 0 by norm_num)
        (fun f hfm => le_trans (by norm_num) (hall f hfm).1)
    have hmaxy : st'.surf.max_y = 6 := by
      rw [hy2]
      refine le_antisymm ?_ ?_
      · exact foldl_max_le_bound (fun f => f.A.y) 6 new _
          (show (0 : ℚ) ≤ 6 by norm_num)
          (fun f hfm => (hall f hfm).2.2.2.1)
      · rw [← hfy]
        exact le_foldl_max_of_mem (fun f => f.A.y) new _ fy hfym
    have hminy : st'.surf.min_y = 0 := by
      rw [hy1]
      refine le_antisymm (foldl_min_le (fun f => f.A.y) new _) ?_
      exact bound_le_foldl_min (fun f => f.A.y) 0 new _
        (show (0 : ℚ) ≤ 0 by norm_num)
        (fun f hfm => le_trans (by norm_num) (hall f hfm).2.2.1)
    have hmaxz : st'.surf.max_z = 3 := by
      rw [hz2]
      refine le_antisymm ?_ ?_
      · exact foldl_max_le_bound (fun f => f.A.z) 3 new _
          (show (0 : ℚ) ≤ 3 by norm_num)
          (fun f hfm => (hall f hfm).2.2.2.2.2)
      · rw [← hfz]
        exact le_foldl_max_of_mem (fun f => f.A.z) new _ fz hfzm
    have hminz : st'.surf.min_z = 0 := by
      rw [hz1]
      refine le_antisymm (foldl_min_le (fun f => f.A.z) new _) ?_
      exact bound_le_foldl_min (fun f => f.A.z) 0 new _
        (show (0 : ℚ) ≤ 0 by norm_num)
        (fun f hfm => (hall f hfm).2.2.2.2.1)
    constructor
    · unfold Surface.find_dims
      rw [hmaxx, hminx, hmaxy, hminy, hmaxz, hminz]
      norm_num
    · unfold Surface.get_bounding_box_volume Surface.find_dims
      rw [hmaxx, hminx, hmaxy, hminy, hmaxz, hminz]
      norm_num

/-- Claim C8: a successful load has one facet per `endfacet` line, appended
in input order, and the running area is the sum of the facet areas. -/
theorem c8_blocks_and_area (lines : List String) (s' : Surface)
    (h : Surface.init.load lines = some s') :
    s'.facets.length = lines.countP isEndfacetLine ∧
    s'.area = (s'.facets.map Facet.area).sum ∧
    (∀ (more : List String) (s2 : Surface),
      Surface.init.load (lines ++ more) = some s2 →
      s2.facets.take s'.facets.length = s'.facets) := by
  obtain ⟨st', haux, hsurf⟩ := load_inv Surface.init lines s' h
  subst hsurf
  obtain ⟨new, hf, ha, hx1, hx2, hy1, hy2, hz1, hz2, hlen⟩ :=
    loadAux_spine lines _ st' haux
  have hfn : st'.surf.facets = new := by rw [hf]; rfl
  refine ⟨by rw [hfn, hlen], ?_, ?_⟩
  · rw [ha, hfn]
    show (0 : ℝ) + (new.map Facet.area).sum = (new.map Facet.area).sum
    rw [zero_add]
  · intro more s2 h2
    obtain ⟨st2, haux2, hsurf2⟩ := load_inv Surface.init (lines ++ more) s2 h2
    subst hsurf2
    rw [loadAux_append lines more, haux, Option.some_bind] at haux2
    obtain ⟨new2, hf2, _, _, _, _, _, _, _, _⟩ :=
      loadAux_spine more st' st2 haux2
    rw [hf2]
    exact List.take_left _ _

/-! ### The vertex-to-facet index -/

lemma lookup_appendFacet (m : List (List ℚ × List Facet)) (w : List ℚ)
    (f : Facet) (v : List ℚ) :
    lookupKey (appendFacet m w f) v =
      if w = v then some ((lookupKey m v).getD [] ++ [f])
      else lookupKey m v := by
  induction m with
  | nil => by_cases h : w = v <;> simp [appendFacet, lookupKey, h]
  | cons p rest ih =>
    obtain ⟨k, fs⟩ := p
    by_cases hkw : k = w <;> by_cases hkv : k = v <;> by_cases hwv : w = v <;>
      simp_all [appendFacet, lookupKey]

lemma lookup_foldl_append (f : Facet) (v : List ℚ) :
    ∀ (vs : List (List ℚ)) (m : List (List ℚ × List Facet)),
    (lookupKey (vs.foldl (fun m2 w => appendFacet m2 w f) m) v).getD [] =
      (lookupKey m v).getD [] ++ List.replicate (vs.count v) f := by
  intro vs
  induction vs with
  | nil => intro m; simp
  | cons w vs ih =>
    intro m
    show (lookupKey (vs.foldl (fun m2 w2 => appendFacet m2 w2 f)
      (appendFacet m w f)) v).getD [] = _
    rw [ih (appendFacet m w f), lookup_appendFacet]
    by_cases hwv : w = v
    · subst hwv
      rw [if_pos rfl, List.count_cons_self]
      simp [List.replicate_succ, List.append_assoc]
    · rw [if_neg hwv, List.count_cons_of_ne (Ne.symm hwv)]

lemma lookup_foldl_not_mem (f : Facet) (v : List ℚ) :
    ∀ (vs : List (List ℚ)) (m : List (List ℚ × List Facet)), v ∉ vs →
    lookupKey (vs.foldl (fun m2 w => appendFacet m2 w f) m) v =
      lookupKey m v := by
  intro vs
  induction vs with
  | nil => intro m _; rfl
  | cons w vs ih =>
    intro m hv
    show lookupKey (vs.foldl (fun m2 w2 => appendFacet m2 w2 f)
      (appendFacet m w f)) v = _
    rw [ih _ (fun h => hv (List.mem_cons_of_mem w h)), lookup_appendFacet,
      if_neg (fun (h : w = v) => hv (h ▸ List.mem_cons_self w vs))]

lemma loadAux_unseen (v : List ℚ) : ∀ (lines : List String)
    (st st' : LoadState), loadAux lines st = some st' →
    v ∉ st.vertices → lookupKey st.surf.vertices v = none →
    (∀ l ∈ lines, ∀ args : List String,
      _parse_line l = some ("vertex", args) →
      args.mapM parseFloat ≠ some v) →
    lookupKey st'.surf.vertices v = none := by
  intro lines
  induction lines with
  | nil =>
    intro st st' h hpend hmap _
    cases Option.some.inj h
    exact hmap
  | cons l ls ih =>
    intro st st' h hpend hmap hno
    have h2 : (loadStep st l).bind (loadAux ls) = some st' := h
    cases hstep : loadStep st l with
    | none => rw [hstep, Option.none_bind] at h2; cases h2
    | some st1 =>
      rw [hstep, Option.some_bind] at h2
      have hno2 : ∀ l2 ∈ ls, ∀ args : List String,
          _parse_line l2 = some ("vertex", args) →
          args.mapM parseFloat ≠ some v :=
        fun l2 hl2 => hno l2 (List.mem_cons_of_mem l hl2)
      cases hp : _parse_line l with
      | none =>
        unfold loadStep at hstep
        rw [hp, Option.none_bind] at hstep
        cases hstep
      | some kv =>
        obtain ⟨k, v2⟩ := kv
        by_cases hk1 : k = "solid"
        · subst hk1
          rw [loadStep_solid st l v2 hp] at hstep
          cases Option.some.inj hstep
          exact ih _ st' h2 hpend hmap hno2
        · by_cases hk2 : k = "facet"
          · subst hk2
            cases hm : (v2.drop 1).mapM parseFloat with
            | none => rw [loadStep_facet_none st l v2 hp hm] at hstep; cases hstep
            | some n =>
              rw [loadStep_facet st l v2 n hp hm] at hstep
              cases Option.some.inj hstep
              exact ih _ st' h2 hpend hmap hno2
          · by_cases hk3 : k = "vertex"
            · subst hk3
              cases hm : v2.mapM parseFloat with
              | none =>
                rw [loadStep_vertex_none st l v2 hp hm] at hstep; cases hstep
              | some w =>
                rw [loadStep_vertex st l v2 w hp hm] at hstep
                cases Option.some.inj hstep
                have hwv : w ≠ v := fun hq =>
                  hno l (List.mem_cons_self l ls) v2 hp (hq ▸ hm)
                have hpend2 : v ∉ st.vertices ++ [w] := by
                  intro hmem
                  rcases List.mem_append.mp hmem with h1 | h1
                  · exact hpend h1
                  · exact hwv (List.mem_singleton.mp h1).symm
                exact ih _ st' h2 hpend2 hmap hno2
            · by_cases hk4 : k = "endfacet"
              · subst hk4
                cases hadd : st.surf.add_facet st.normal st.vertices with
                | none =>
                  rw [loadStep_endfacet_none st l v2 hp hadd] at hstep
                  cases hstep
                | some s2 =>
                  rw [loadStep_endfacet st l v2 s2 hp hadd] at hstep
                  cases Option.some.inj hstep
                  obtain ⟨f, hmkf, hs2⟩ := add_facet_inv_any _ _ _ _ hadd
                  subst hs2
                  refine ih _ st' h2 (by simp) ?_ hno2
                  exact (lookup_foldl_not_mem f v st.vertices
                    st.surf.vertices hpend).trans hmap
              · rw [loadStep_other st l k v2 hp hk1 hk2 hk3 hk4] at hstep
                cases Option.some.inj hstep
                exact ih _ st' h2 hpend hmap hno2

/-- Claim C7: the vertex index starts empty (any lookup yields the empty
sequence, not an error); each facet ingestion appends the facet at the end
of the entry of every vertex tuple it supplies, once per position (so a
vertex shared by k facets lists those k facets in ingestion order); and a
vertex tuple never supplied by any `vertex` line of a load is absent from
the loaded index, its lookup returning the empty sequence. -/
theorem c7_vertex_index :
    (∀ v : List ℚ, Surface.init.find_facets v = []) ∧
    (∀ (s : Surface) (n : Option (List ℚ)) (verts : List (List ℚ))
      (f : Facet) (s' : Surface), mkFacet n verts = some f →
      s.add_facet n verts = some s' →
      ∀ v : List ℚ, s'.find_facets v =
        s.find_facets v ++ List.replicate (verts.count v) f) ∧
    (∀ (lines : List String) (s' : Surface) (v : List ℚ),
      Surface.init.load lines = some s' →
      (∀ l ∈ lines, ∀ args : List String,
        _parse_line l = some ("vertex", args) →
        args.mapM parseFloat ≠ some v) →
      s'.find_facets v = []) := by
  refine ⟨fun v => rfl, ?_, ?_⟩
  · intro s n verts f s' hmk hadd v
    rw [add_facet_eq s n verts f hmk] at hadd
    cases Option.some.inj hadd
    show (lookupKey (verts.foldl (fun m w => appendFacet m w f) s.vertices)
      v).getD [] = _
    exact lookup_foldl_append f v verts s.vertices
  · intro lines s' v h hno
    obtain ⟨st', haux, hsurf⟩ := load_inv Surface.init lines s' h
    subst hsurf
    have hnone := loadAux_unseen v lines _ st' haux (by simp) rfl hno
    unfold Surface.find_facets
    rw [hnone]
    rfl

/-- Witness for C4: one facet whose first vertex is `(5,6,3)` (so the spans
are attained and every coordinate is inside the stated ranges) gives
`find_dims = (5,6,3)` and volume `90`. -/
theorem c4_extents_seeded_at_zero_witness :
    (Surface.init.load ["solid demo", "facet normal 0 0 1", "outer loop",
        "vertex 5 6 3", "vertex 0 0 0", "vertex 1 1 1", "endloop",
        "endfacet"]).map
      (fun s => (s.find_dims, s.get_bounding_box_volume)) =
    some ((5, 6, 3), 90) := by
  obtain ⟨s', hs'⟩ : ∃ x, Surface.init.load ["solid demo",
      "facet normal 0 0 1", "outer loop", "vertex 5 6 3", "vertex 0 0 0",
      "vertex 1 1 1", "endloop", "endfacet"] = some x :=
    ⟨_, by with_unfolding_all rfl⟩
  have hproj : (Surface.init.load ["solid demo", "facet normal 0 0 1",
      "outer loop", "vertex 5 6 3", "vertex 0 0 0", "vertex 1 1 1",
      "endloop", "endfacet"]).map
      (fun s => s.facets.map (fun f => (f.A.x, f.A.y, f.A.z))) =
      some [(5, 6, 3)] := by with_unfolding_all rfl
  rw [hs', Option.map_some'] at hproj
  have hfacets := Option.some.inj hproj
  obtain ⟨f0, t, hft⟩ : ∃ f0 t, s'.facets = f0 :: t := by
    cases hc : s'.facets with
    | nil => rw [hc] at hfacets; cases hfacets
    | cons f0 t => exact ⟨f0, t, rfl⟩
  rw [hft, List.map_cons] at hfacets
  injection hfacets with h1 h2
  obtain rfl : t = [] := List.map_eq_nil_iff.mp h2
  injection h1 with hx hyz
  injection hyz with hy hz
  have hres := c4_extents_seeded_at_zero.2.2 _ s' hs'
    (by
      intro f hf
      rw [hft] at hf
      rcases List.mem_cons.mp hf with rfl | hf2
      · rw [hx, hy, hz]
        norm_num
      · cases hf2)
    ⟨f0, by rw [hft]; exact List.mem_cons_self _ _, hx⟩
    ⟨f0, by rw [hft]; exact List.mem_cons_self _ _, hy⟩
    ⟨f0, by rw [hft]; exact List.mem_cons_self _ _, hz⟩
  rw [hs', Option.map_some', hres.1, hres.2]

/-- Witness for C8 on a two-block input: two facets, matching the count of
`endfacet` lines. -/
theorem c8_blocks_and_area_witness :
    (Surface.init.load ["solid m", "facet normal 0 0 1", "outer loop",
        "vertex 0 0 0", "vertex 1 0 0", "vertex 0 1 0", "endloop",
        "endfacet", "facet normal 0 0 1", "vertex 0 0 0", "vertex 1 0 0",
        "vertex 0 0 1", "endfacet"]).map (fun s => s.facets.length) =
      some 2 ∧
    (["solid m", "facet normal 0 0 1", "outer loop", "vertex 0 0 0",
      "vertex 1 0 0", "vertex 0 1 0", "endloop", "endfacet",
      "facet normal 0 0 1", "vertex 0 0 0", "vertex 1 0 0", "vertex 0 0 1",
      "endfacet"].countP isEndfacetLine) = 2 := by
  obtain ⟨s', hs'⟩ : ∃ x, Surface.init.load ["solid m",
      "facet normal 0 0 1", "outer loop", "vertex 0 0 0", "vertex 1 0 0",
      "vertex 0 1 0", "endloop", "endfacet", "facet normal 0 0 1",
      "vertex 0 0 0", "vertex 1 0 0", "vertex 0 0 1", "endfacet"] = some x :=
    ⟨_, by with_unfolding_all rfl⟩
  have h8 := c8_blocks_and_area _ s' hs'
  constructor
  · rw [hs', Option.map_some', h8.1]
    with_unfolding_all rfl
  · with_unfolding_all rfl

/-- Witness for C7: a vertex supplied once by an ingested facet lists that
facet exactly once; an unseen vertex yields the empty sequence. -/
theorem c7_vertex_index_witness :
    (Surface.init.add_facet none [[0, 0, 0], [1, 0, 0], [0, 1, 0]]).map
      (fun s => (s.find_facets [0, 0, 0]).length) = some 1 ∧
    Surface.init.find_facets [(7 : ℚ), 7, 7] = [] := by
  obtain ⟨f, hf⟩ : ∃ f,
      mkFacet none [[0, 0, 0], [1, 0, 0], [0, 1, 0]] = some f :=
    ⟨_, by with_unfolding_all rfl⟩
  obtain ⟨s', hs'⟩ : ∃ x,
      Surface.init.add_facet none [[0, 0, 0], [1, 0, 0], [0, 1, 0]] =
        some x :=
    ⟨_, by with_unfolding_all rfl⟩
  have h := c7_vertex_index
  constructor
  · rw [hs', Option.map_some',
      h.2.1 Surface.init none _ f s' hf hs' [0, 0, 0], h.1 [0, 0, 0]]
    have hc : ([[0, 0, 0], [1, 0, 0], [0, 1, 0]] :
        List (List ℚ)).count [0, 0, 0] = 1 := by with_unfolding_all rfl
    rw [hc]
    simp
  · exact h.1 _

/-! ### Claims C5 and C6: what the `facet` and `solid` tokens actually do -/

/-- Counterexample to C5 as stated: a stray `vertex` line before a `facet`
line survives it — the pending vertex list after the `facet` token is
`1,2,3`, not empty. -/
theorem c5_facet_resets_counterexample :
    (loadAux ["vertex 1 2 3", "facet normal 0 0 1"]
        { normal := none, vertices := [], surf := Surface.init }).map
      LoadState.vertices = some [[1, 2, 3]] ∧
    ([[(1 : ℚ), 2, 3]] : List (List ℚ)) ≠ [] := by
  constructor
  · with_unfolding_all rfl
  · simp

/-- Claim C5 (amended): a `facet` token captures the normal from the
numeric arguments after the first argument (the `normal` keyword) and
leaves the pending vertex list unchanged — it is emptied only at start of
load and by `endfacet`. -/
theorem c5_facet_token_amended (st : LoadState) (l : String)
    (args : List String) (n : List ℚ)
    (h : _parse_line l = some ("facet", args))
    (hn : (args.drop 1).mapM parseFloat = some n) :
    loadStep st l = some
      { normal := some n, vertices := st.vertices, surf := st.surf } :=
  loadStep_facet st l args n h hn

/-- Witness for the amended C5: a non-empty pending vertex list passes
through a `facet` line unchanged while the normal is captured. -/
theorem c5_facet_token_amended_witness :
    loadStep { normal := none, vertices := [[9, 9, 9]], surf := Surface.init }
        ("facet normal 0 0 1") =
      some { normal := some [0, 0, 1], vertices := [[9, 9, 9]],
             surf := Surface.init } := by
  refine c5_facet_token_amended _ _ ["normal", "0", "0", "1"] [0, 0, 1] ?_ ?_
  · with_unfolding_all rfl
  · with_unfolding_all rfl

/-- Counterexample to C6 as stated: after `solid A` then `solid B` the
stored name is `B`, so the first `solid` line did not win. -/
theorem c6_first_solid_counterexample :
    (Surface.init.load ["solid A", "solid B"]).map Surface.name =
      some (some ["B"]) ∧
    some (some (["B"] : List String)) ≠ some (some ["A"]) := by
  constructor
  · with_unfolding_all rfl
  · simp

/-- Claim C6 (amended): every `solid` line overwrites the surface name with
its arguments; after a load ending in a `solid` line the stored name is
that line's arguments (last write wins, no first-occurrence guard). -/
theorem c6_last_solid_wins (ls : List String) (l : String)
    (args : List String) (h : _parse_line l = some ("solid", args))
    (s s' : Surface) (h2 : s.load (ls ++ [l]) = some s') :
    s'.name = some args := by
  obtain ⟨st', haux, hsurf⟩ := load_inv s (ls ++ [l]) s' h2
  subst hsurf
  rw [loadAux_append ls [l]] at haux
  cases h1 : loadAux ls { normal := none, vertices := [], surf := s } with
  | none => rw [h1, Option.none_bind] at haux; cases haux
  | some st1 =>
    rw [h1, Option.some_bind, loadAux_singleton,
      loadStep_solid st1 l args h] at haux
    cases Option.some.inj haux
    rfl

/-- Witness for the amended C6: loading `solid A` then `solid B` stores
name `B`. -/
theorem c6_last_solid_wins_witness :
    (Surface.init.load (["solid A"] ++ ["solid B"])).map Surface.name =
      some (some ["B"]) := by
  obtain ⟨s', hs'⟩ : ∃ x,
      Surface.init.load (["solid A"] ++ ["solid B"]) = some x :=
    ⟨_, by with_unfolding_all rfl⟩
  have hname := c6_last_solid_wins ["solid A"] ("solid B") ["B"]
    (by with_unfolding_all rfl) Surface.init s' hs'
  rw [hs', Option.map_some', hname]

end StlMetadata
